import Mathlib

/-!
Shallow embedding of the BIP151-style encrypted transport in
`src/net_encryption.cpp`: session keystate (`BIP151Encryption`), packet
codec (`EncryptAppendMAC` / `AuthenticatedAndDecrypt` / `GetLength`),
streaming decoder (`NetCryptedMessage::Read`), handshake processing and
rekeying.  Bytes are `Nat`s, buffers are `List Nat`, time is an explicit
`Int` argument (the source's `GetTime()`), and the `-netencryptionfastrekey`
configuration flag is an explicit `Bool` argument.  The cryptographic
primitives (ChaCha20-Poly1305, HKDF, SHA256d, secp256k1 ECDH), which live
outside the given sources, are modelled from their spec contracts and kept
abstract behind a `Prims` bundle so that no property can depend on a made-up
cipher.
-/

/-- Modelled from the spec: `AAD_LEN`, the primitive-fixed header length
(3 bytes of little-endian 24-bit length); the constant is declared in the
missing `net_encryption.h`. -/
def AAD_LEN : Nat := 3

/-- Modelled from the spec: `TAG_LEN`, the primitive-fixed Poly1305 tag
length (16 bytes); the constant is declared in the missing
`net_encryption.h`. -/
def TAG_LEN : Nat := 16

/-- Policy constants (`REKEY_LIMIT_BYTES`, `REKEY_LIMIT_TIME`,
`MIN_REKEY_TIME`, `ABORT_LIMIT_BYTES`, `ABORT_LIMIT_TIME`, `MAX_SIZE`)
declared in headers outside the given sources; kept abstract as a
parameter record so theorems hold for any concrete values. -/
structure Limits where
  rekeyLimitBytes : Nat
  rekeyLimitTime : Int
  minRekeyTime : Int
  abortLimitBytes : Nat
  abortLimitTime : Int
  maxSize : Nat
deriving DecidableEq

/-- XOR a list of bytes with a keystream `f` starting at index `i`
(models the stream-cipher part of ChaCha20: byte `j` of the buffer is
XORed with keystream byte `i + j`). -/
def xorKs (f : Nat → Nat) : Nat → List Nat → List Nat
  | _, [] => []
  | i, b :: bs => (b ^^^ f i) :: xorKs f (i + 1) bs

/-- Modelled from the spec: the primitive bundle.  `ksA` is the keystream
derived from the first 32 keypack bytes (encrypts the 3-byte length field),
`ksB` the keystream from the second 32 bytes (encrypts the payload), `tagF`
the 16-byte Poly1305 tag over the authenticated bytes, `sha256d` the
double-SHA256 (`Hash` in the source), `hkdf` the HKDF-SHA256-L32 expansion
(salted extraction over the shared secret is folded into the label map),
`ecdh` the secp256k1 ECDH returning a 32-byte secret, `isFullyValid` the
pubkey validity check, and `parseCmd` the `CDataStream >> string` command
name extraction (returns the parsed name and the remaining stream, or
`none` on a deserialization exception). -/
structure Prims where
  ksA : List Nat → Nat → Nat → Nat
  ksB : List Nat → Nat → Nat → Nat
  tagF : List Nat → Nat → List Nat → List Nat
  sha256d : List Nat → List Nat
  hkdf : List Nat → String → List Nat
  ecdh : Nat → List Nat → Option (List Nat)
  isFullyValid : List Nat → Bool
  parseCmd : List Nat → Option (List Nat × List Nat)
  tag_len : ∀ key seq msg, (tagF key seq msg).length = TAG_LEN

/-- Modelled from the spec: `chacha20poly1305_crypt` in encrypt direction.
The input buffer is `AAD_LEN` bytes of length field followed by the
plaintext payload; the output is the encrypted length field, the
ciphertext, and the trailing 16-byte tag over the authenticated bytes. -/
def chacha20poly1305_encrypt (pr : Prims) (key : List Nat) (seq : Nat)
    (input : List Nat) : List Nat :=
  let encAad := xorKs (pr.ksA (key.take 32) seq) 0 (input.take AAD_LEN)
  let encPay := xorKs (pr.ksB (key.drop 32) seq) 0 (input.drop AAD_LEN)
  encAad ++ encPay ++ pr.tagF key seq (encAad ++ encPay)

/-- Modelled from the spec: `chacha20poly1305_crypt` in decrypt direction.
Checks the trailing tag; on success returns the decrypted buffer (length
field and payload), on tag mismatch returns `none` (the source's `-1`). -/
def chacha20poly1305_decrypt (pr : Prims) (key : List Nat) (seq : Nat)
    (input : List Nat) (payloadLen : Nat) : Option (List Nat) :=
  let encAad := input.take AAD_LEN
  let encPay := (input.drop AAD_LEN).take payloadLen
  let tagIn := (input.drop (AAD_LEN + payloadLen)).take TAG_LEN
  if tagIn = pr.tagF key seq (encAad ++ encPay) then
    some (xorKs (pr.ksA (key.take 32) seq) 0 encAad ++
          xorKs (pr.ksB (key.drop 32) seq) 0 encPay)
  else none

/-- Modelled from the spec: `chacha20poly1305_get_length24` recovers the
cleartext little-endian 24-bit length from the three AAD bytes without
advancing the AEAD state. -/
def chacha20poly1305_get_length24 (pr : Prims) (key : List Nat) (seq : Nat)
    (v : List Nat) : Nat :=
  let b0 := v.getD 0 0 ^^^ pr.ksA (key.take 32) seq 0
  let b1 := v.getD 1 0 ^^^ pr.ksA (key.take 32) seq 1
  let b2 := v.getD 2 0 ^^^ pr.ksA (key.take 32) seq 2
  b0 % 256 + 256 * (b1 % 256) + 65536 * (b2 % 256)

/-- The mutable state of one `BIP151Encryption` session, one field per data
member of the class.  The AEAD contexts are represented by the 64-byte key
blob currently installed in them (`chacha20poly1305_init` stores exactly
that); the ephemeral ECDH key is `none` once `SetNull()` has run. -/
structure BIP151State where
  inbound : Bool
  handshake_done : Bool
  k1 : List Nat
  k2 : List Nat
  session_id : List Nat
  send_seq : Nat
  recv_seq : Nat
  bytes_enc : Nat
  bytes_dec : Nat
  t_rekey_send : Int
  t_rekey_recv : Int
  send_ctx : List Nat
  recv_ctx : List Nat
  eph_key : Option Nat
  ecdh_secret : List Nat
deriving DecidableEq

/-- `BIP151Encryption::ShouldCryptMsg`: true iff the handshake completed. -/
def ShouldCryptMsg (st : BIP151State) : Bool :=
  st.handshake_done

/-- `BIP151Encryption::ShouldRekeySend`: rekey the send direction once the
byte or time limit is reached (with the insane fast schedule when the
`-netencryptionfastrekey` flag is set). -/
def ShouldRekeySend (lim : Limits) (st : BIP151State) (now : Int)
    (fastRekey : Bool) : Bool :=
  if !st.handshake_done then false
  else if fastRekey &&
      (decide (st.bytes_enc ≥ 12 * 1024) || decide (now - st.t_rekey_send > 10)) then
    true
  else if decide (st.bytes_enc ≥ lim.rekeyLimitBytes) ||
      decide (now - st.t_rekey_send ≥ lim.rekeyLimitTime) then
    true
  else false

/-- The keypack serving direction `send_channel`, as selected by
`BIP151Encryption::Rekey`: the send channel uses K2 on the inbound
(responder) peer and K1 on the outbound (initiator) peer; the recv channel
the other one. -/
def rekeySource (st : BIP151State) (send_channel : Bool) : List Nat :=
  if send_channel then (if st.inbound then st.k2 else st.k1)
  else (if st.inbound then st.k1 else st.k2)

/-- The replacement keypack computed by `BIP151Encryption::Rekey`:
`SHA256d(session_id || old[0..32]) || SHA256d(session_id || old[32..64])`. -/
def rekeyNewKeypack (pr : Prims) (st : BIP151State) (send_channel : Bool) :
    List Nat :=
  pr.sha256d (st.session_id ++ (rekeySource st send_channel).take 32) ++
  pr.sha256d (st.session_id ++ (rekeySource st send_channel).drop 32)

/-- `BIP151Encryption::Rekey`.  A recv-channel rekey within `MIN_REKEY_TIME`
of the previous one is refused.  Otherwise the keypack serving the channel
is replaced by its double-SHA256 derivation, the matching AEAD context is
re-initialized, and the matching byte counter and timestamp are reset.
Note that the source resets no sequence counter here. -/
def Rekey (pr : Prims) (lim : Limits) (st : BIP151State)
    (send_channel : Bool) (now : Int) : Bool × BIP151State :=
  if !send_channel && decide (now - st.t_rekey_recv < lim.minRekeyTime) then
    (false, st)
  else
    let nk := rekeyNewKeypack pr st send_channel
    if send_channel then
      let st1 := if st.inbound then { st with k2 := nk } else { st with k1 := nk }
      (true, { st1 with bytes_enc := 0, t_rekey_send := now, send_ctx := nk })
    else
      let st1 := if st.inbound then { st with k1 := nk } else { st with k2 := nk }
      (true, { st1 with bytes_dec := 0, t_rekey_recv := now, recv_ctx := nk })

/-- Result of one codec call: the boolean return value, the session state
after the call, and the contents of the caller's `data_in_out` buffer. -/
structure CryptResult where
  ok : Bool
  st : BIP151State
  buf : List Nat
deriving DecidableEq

/-- `BIP151Encryption::EncryptAppendMAC`.  Rejects an input whose header
already has bit 23 set; otherwise sets the rekey-signal bit when a
send-side rekey is due, AEAD-encrypts with the current send sequence
number (post-incrementing it), counts the payload bytes, replaces the
buffer with `AAD || ciphertext || tag`, and performs the send-side rekey
after encryption when it was signalled. -/
def EncryptAppendMAC (pr : Prims) (lim : Limits) (st : BIP151State)
    (now : Int) (fastRekey : Bool) (data : List Nat) : CryptResult :=
  if (data.getD 2 0).testBit 7 then ⟨false, st, data⟩
  else
    let should := ShouldRekeySend lim st now fastRekey
    let data' := if should then data.set 2 (data.getD 2 0 ||| 128) else data
    let out := chacha20poly1305_encrypt pr st.send_ctx st.send_seq data'
    let st1 := { st with send_seq := st.send_seq + 1,
                         bytes_enc := st.bytes_enc + (data.length - AAD_LEN) }
    let st2 := if should then (Rekey pr lim st1 true now).2 else st1
    ⟨true, st2, out⟩

/-- `BIP151Encryption::AuthenticatedAndDecrypt`.  Refuses to decrypt (abuse
limits) when the decrypted-byte or time abort limit would be exceeded;
otherwise AEAD-decrypts with the current recv sequence number
(post-incrementing it even on tag mismatch, as the source's `m_recv_seq_nr++`
does), zeroes the buffer and fails on tag mismatch, and on success counts
the payload bytes and leaves exactly the plaintext payload in the buffer. -/
def AuthenticatedAndDecrypt (pr : Prims) (lim : Limits) (st : BIP151State)
    (now : Int) (fastRekey : Bool) (data : List Nat) : CryptResult :=
  let vsize := data.length
  if decide (st.bytes_dec + vsize > lim.abortLimitBytes) ||
     decide (now - st.t_rekey_send > lim.abortLimitTime) ||
     (fastRekey && decide (st.bytes_dec + vsize > 12 * 1024)) then
    ⟨false, st, data⟩
  else
    match chacha20poly1305_decrypt pr st.recv_ctx st.recv_seq data
        (vsize - TAG_LEN - AAD_LEN) with
    | none =>
      ⟨false, { st with recv_seq := st.recv_seq + 1 },
        List.replicate vsize 0⟩
    | some dec =>
      ⟨true, { st with recv_seq := st.recv_seq + 1,
                       bytes_dec := st.bytes_dec + (vsize - TAG_LEN - AAD_LEN) },
        (dec.drop AAD_LEN).take (vsize - TAG_LEN - AAD_LEN)⟩

/-- `BIP151Encryption::GetLength`: fails when fewer than `AAD_LEN` bytes are
available, otherwise recovers the 24-bit length with the recv AEAD context
and the current recv sequence number. -/
def GetLength (pr : Prims) (st : BIP151State) (v : List Nat) : Option Nat :=
  if v.length < AAD_LEN then none
  else some (chacha20poly1305_get_length24 pr st.recv_ctx st.recv_seq v)

/-- `BIP151Encryption::EnableEncryption`.  A no-op unless the stored ECDH
secret is exactly 32 bytes; otherwise derives the two directional keypacks
and the session id by HKDF, zeroes `m_bytes_encrypted`, stamps both rekey
timestamps, installs K1 as the outbound peer's send key (K2 on the inbound
peer) and the other keypack on the recv side, and marks the handshake
done.  Faithful to the source, it does not reset `m_bytes_decrypted`, the
sequence counters, or the stored ECDH secret. -/
def EnableEncryption (pr : Prims) (st : BIP151State) (inbound : Bool)
    (now : Int) : BIP151State :=
  if st.ecdh_secret.length ≠ 32 then st
  else
    let k1 := pr.hkdf st.ecdh_secret "BitcoinK1A" ++
              pr.hkdf st.ecdh_secret "BitcoinK1B"
    let k2 := pr.hkdf st.ecdh_secret "BitcoinK2A" ++
              pr.hkdf st.ecdh_secret "BitcoinK2B"
    { st with inbound := inbound,
              k1 := k1, k2 := k2,
              session_id := pr.hkdf st.ecdh_secret "BitcoinSessionID",
              bytes_enc := 0,
              t_rekey_send := now, t_rekey_recv := now,
              send_ctx := if inbound then k2 else k1,
              recv_ctx := if inbound then k1 else k2,
              handshake_done := true }

/-- `BIP151Encryption::ProcessHandshakeRequestData`: rejects input that is
not exactly 32 bytes, reconstructs the even-parity compressed point by
prepending `0x02`, validates it, computes the ECDH secret with the
ephemeral key, and nulls the ephemeral key afterwards (also when ECDH
fails). -/
def ProcessHandshakeRequestData (pr : Prims) (st : BIP151State)
    (handshake_data : List Nat) : Bool × BIP151State :=
  if handshake_data.length ≠ 32 then (false, st)
  else
    let pub := 2 :: handshake_data
    if !pr.isFullyValid pub then (false, st)
    else
      match st.eph_key with
      | none => (false, { st with eph_key := none })
      | some k =>
        match pr.ecdh k pub with
        | some s => (true, { st with ecdh_secret := s, eph_key := none })
        | none => (false, { st with eph_key := none })

/-- The mutable state of one `NetCryptedMessage` streaming decoder, one
field per data member used by `Read`: the header/body phase flag, the two
positions, the recovered message size, the rekey flag, the receive buffer
and the command name parsed from a completed frame. -/
structure DecoderState where
  in_data : Bool
  hdr_pos : Nat
  data_pos : Nat
  message_size : Nat
  rekey_flag : Bool
  vRecv : List Nat
  command_name : List Nat
deriving DecidableEq

/-- `memcpy(&buf[pos], src, src.length)` on a byte buffer: overwrite
`src.length` bytes of `buf` starting at `pos`. -/
def listWrite (buf : List Nat) (pos : Nat) (src : List Nat) : List Nat :=
  buf.take pos ++ src ++ buf.drop (pos + src.length)

/-- `std::vector::resize(n)` on a byte buffer: truncate or zero-extend to
length `n`. -/
def listResize (buf : List Nat) (n : Nat) : List Nat :=
  buf.take n ++ List.replicate (n - buf.length) 0

/-- Modelled from the spec: `NetCryptedMessage::Complete()` (declared in
the missing `net_encryption.h`): a frame is complete once the whole
`message_size + TAG_LEN` body has been received in the data phase. -/
def NetCryptedMessage.Complete (d : DecoderState) : Bool :=
  d.in_data && decide (d.data_pos = d.message_size + TAG_LEN)

/-- Result of one `NetCryptedMessage::Read` call: the `int` return value
(consumed byte count, `-1`, or the source's `return false` which the C++
`int` return type converts to `0`), the decoder state and the session
state after the call. -/
structure ReadResult where
  ret : Int
  dec : DecoderState
  enc : BIP151State
deriving DecidableEq

/-- `NetCryptedMessage::Read`.  Header phase: accumulate `AAD_LEN` header
bytes, then recover the length, split off the rekey bit (bit 23), reject
sizes above `MAX_SIZE` with `-1`, and switch to the data phase.  Data
phase: grow the buffer (at most 256 KiB ahead), accumulate
`message_size + TAG_LEN` body bytes; on completion authenticate-and-decrypt
(failure returns the source's `false`, i.e. `0`), parse the command name
(failure likewise returns `false`/`0`), and perform the peer-requested
recv rekey when the header carried the rekey flag, ignoring its result as
the source does. -/
def NetCryptedMessage.Read (pr : Prims) (lim : Limits) (d : DecoderState)
    (e : BIP151State) (now : Int) (fastRekey : Bool) (pch : List Nat) :
    ReadResult :=
  if !d.in_data then
    let remaining := AAD_LEN - d.hdr_pos
    let copy := min remaining pch.length
    let v := listWrite d.vRecv d.hdr_pos (pch.take copy)
    let hdrPos := d.hdr_pos + copy
    if hdrPos < AAD_LEN then
      ⟨Int.ofNat copy, { d with vRecv := v, hdr_pos := hdrPos }, e⟩
    else
      match GetLength pr e v with
      | none => ⟨-1, { d with vRecv := v, hdr_pos := hdrPos }, e⟩
      | some len =>
        let flag := decide (len &&& 8388608 ≠ 0)
        let msize := if flag then len &&& 8388607 else len
        if msize > lim.maxSize then
          ⟨-1, { d with vRecv := v, hdr_pos := hdrPos,
                        rekey_flag := flag, message_size := msize }, e⟩
        else
          ⟨Int.ofNat copy,
            { d with vRecv := v, hdr_pos := hdrPos, rekey_flag := flag,
                     message_size := msize, in_data := true }, e⟩
  else
    let remaining := d.message_size + TAG_LEN - d.data_pos
    let copy := min remaining pch.length
    let v1 :=
      if d.vRecv.length < AAD_LEN + d.data_pos + copy then
        listResize d.vRecv
          (min (AAD_LEN + d.message_size + TAG_LEN)
               (AAD_LEN + d.data_pos + copy + 256 * 1024 + TAG_LEN))
      else d.vRecv
    let v2 := listWrite v1 (AAD_LEN + d.data_pos) (pch.take copy)
    let d1 := { d with vRecv := v2, data_pos := d.data_pos + copy }
    if NetCryptedMessage.Complete d1 then
      let r := AuthenticatedAndDecrypt pr lim e now fastRekey v2
      if !r.ok then
        ⟨0, { d1 with vRecv := r.buf }, r.st⟩
      else
        match pr.parseCmd r.buf with
        | none => ⟨0, { d1 with vRecv := r.buf }, r.st⟩
        | some (cmd, rest) =>
          let e2 := if d.rekey_flag then (Rekey pr lim r.st false now).2 else r.st
          ⟨Int.ofNat copy,
            { d1 with vRecv := rest, command_name := cmd }, e2⟩
    else
      ⟨Int.ofNat copy, d1, e⟩

/-- A concrete instantiation of the primitive bundle used by the concrete
evaluations below: zero keystreams (so encryption is the identity on
bytes), an all-zero 16-byte tag, constant hashes, and a command parser
that consumes nothing. -/
def trivPrims : Prims where
  ksA := fun _ _ _ => 0
  ksB := fun _ _ _ => 0
  tagF := fun _ _ _ => List.replicate 16 0
  sha256d := fun _ => List.replicate 32 1
  hkdf := fun _ _ => List.replicate 32 2
  ecdh := fun _ _ => some (List.replicate 32 7)
  isFullyValid := fun _ => true
  parseCmd := fun l => some ([], l)
  tag_len := fun _ _ _ => by simp [TAG_LEN]

/-- Concrete policy limits used by the concrete evaluations below. -/
def limW : Limits where
  rekeyLimitBytes := 1073741824
  rekeyLimitTime := 600
  minRekeyTime := 10
  abortLimitBytes := 1174405120
  abortLimitTime := 660
  maxSize := 33554432

/-- A concrete post-handshake session state used by the concrete
evaluations below. -/
def stW : BIP151State where
  inbound := false
  handshake_done := true
  k1 := List.replicate 64 2
  k2 := List.replicate 64 2
  session_id := List.replicate 32 2
  send_seq := 5
  recv_seq := 7
  bytes_enc := 0
  bytes_dec := 0
  t_rekey_send := 95
  t_rekey_recv := 95
  send_ctx := List.replicate 64 2
  recv_ctx := List.replicate 64 2
  eph_key := none
  ecdh_secret := List.replicate 32 7

/-- A concrete pre-handshake session state (fresh `BIP151Encryption`
object): ephemeral key present, no ECDH secret yet. -/
def stH : BIP151State where
  inbound := false
  handshake_done := false
  k1 := List.replicate 64 0
  k2 := List.replicate 64 0
  session_id := List.replicate 32 0
  send_seq := 0
  recv_seq := 0
  bytes_enc := 0
  bytes_dec := 0
  t_rekey_send := 0
  t_rekey_recv := 0
  send_ctx := []
  recv_ctx := []
  eph_key := some 1
  ecdh_secret := []

/-- `stW` with the decrypted-byte counter at the abort limit, so that the
next frame trips the byte abort check. -/
def stA : BIP151State := { stW with bytes_dec := 1174405120 }

/-- `stW` as a receiver whose recv sequence counter matches `stW`'s send
counter but whose decrypted-byte counter is at the abort limit. -/
def stB : BIP151State := { stW with bytes_dec := 1174405120, recv_seq := 5 }

/-- `stW` as a receiver whose recv sequence counter matches `stW`'s send
counter. -/
def stC : BIP151State := { stW with recv_seq := 5 }

/-- A concrete decoder state in the data phase: header already consumed
(recovered plaintext length 1, rekey flag set), body not yet received. -/
def dW : DecoderState where
  in_data := true
  hdr_pos := 3
  data_pos := 0
  message_size := 1
  rekey_flag := true
  vRecv := [1, 0, 0]
  command_name := []

/-- A concrete decoder state at the start of the header phase. -/
def dH : DecoderState where
  in_data := false
  hdr_pos := 0
  data_pos := 0
  message_size := 0
  rekey_flag := false
  vRecv := [0, 0, 0]
  command_name := []

/-- `limW` with a small `MAX_SIZE` so that the header-size boundary is
exercisable within the 23-bit masked length range. -/
def limB : Limits := { limW with maxSize := 1000 }

lemma xorKs_length (f : Nat → Nat) (i : Nat) (l : List Nat) :
    (xorKs f i l).length = l.length := by
  induction l generalizing i with
  | nil => rfl
  | cons b bs ih => simp [xorKs, ih]

lemma xorKs_xorKs (f : Nat → Nat) (i : Nat) (l : List Nat) :
    xorKs f i (xorKs f i l) = l := by
  induction l generalizing i with
  | nil => rfl
  | cons b bs ih => simp [xorKs, Nat.xor_cancel_right, ih]

lemma and_bit23_flag (n : Nat) : decide (n &&& 8388608 ≠ 0) = n.testBit 23 := by
  have h8 : (8388608 : Nat) = 2 ^ 23 := by norm_num
  rw [h8, Nat.and_two_pow]
  cases h : n.testBit 23 <;> simp

lemma mask23_eq_mod (n : Nat) (hn : n < 16777216) :
    (if n.testBit 23 then n &&& 8388607 else n) = n % 8388608 := by
  have h7 : (8388607 : Nat) = 2 ^ 23 - 1 := by norm_num
  have h8 : (8388608 : Nat) = 2 ^ 23 := by norm_num
  by_cases h : n.testBit 23
  · simp only [h, if_true, h7, h8, Nat.and_pow_two_sub_one_eq_mod]
  · simp only [h, if_false]
    have hd : n / 2 ^ 23 % 2 ≠ 1 := by
      intro hc
      exact absurd (Nat.testBit_to_div_mod (x := n) ▸ decide_eq_true hc) (by simp [h])
    have hdiv : n / 2 ^ 23 < 2 := by omega
    have h0 : n / 2 ^ 23 = 0 := by omega
    have hlt : n < 2 ^ 23 := (Nat.div_eq_zero_iff (by norm_num)).mp h0
    rw [h8]
    exact (Nat.mod_eq_of_lt hlt).symm

lemma get_length24_lt (pr : Prims) (key : List Nat) (seq : Nat) (v : List Nat) :
    chacha20poly1305_get_length24 pr key seq v < 16777216 := by
  unfold chacha20poly1305_get_length24
  dsimp only
  have h0 := Nat.mod_lt (v.getD 0 0 ^^^ pr.ksA (key.take 32) seq 0) (show 0 < 256 by norm_num)
  have h1 := Nat.mod_lt (v.getD 1 0 ^^^ pr.ksA (key.take 32) seq 1) (show 0 < 256 by norm_num)
  have h2 := Nat.mod_lt (v.getD 2 0 ^^^ pr.ksA (key.take 32) seq 2) (show 0 < 256 by norm_num)
  omega

/-- C1: the claim says a successful `Rekey(d)` leaves the sequence counter
for direction `d` at zero.  The source resets only the byte counter and
the timestamp: no branch of `Rekey` touches `m_send_seq_nr` or
`m_recv_seq_nr`, and on a concrete session with counters 5 and 7 both
successful rekeys leave them at 5 and 7, not 0. -/
theorem rekey_leaves_sequence_counters :
    (∀ pr lim st d now,
      ((Rekey pr lim st d now).2).send_seq = st.send_seq ∧
      ((Rekey pr lim st d now).2).recv_seq = st.recv_seq) ∧
    (Rekey trivPrims limW stW true 100).1 = true ∧
    (Rekey trivPrims limW stW true 100).2.send_seq = 5 ∧
    (Rekey trivPrims limW stW false 200).1 = true ∧
    (Rekey trivPrims limW stW false 200).2.recv_seq = 7 := by
  refine ⟨fun pr lim st d now => ?_, by decide, by decide, by decide, by decide⟩
  unfold Rekey
  split
  · exact ⟨rfl, rfl⟩
  · dsimp only
    split <;> split <;> exact ⟨rfl, rfl⟩

/-- C2: the claim says a completed inbound frame with the rekey flag whose
recv-side rekey is refused under `MIN_REKEY_TIME` makes `Read` report a
fatal error.  In the source, `Read` ignores `Rekey(false)`'s return value:
on a concrete frame completing 5 seconds after the last recv rekey (with
`MIN_REKEY_TIME = 10`, so `Rekey(false)` refuses), `Read` returns the full
17 consumed bytes and the recv key state is simply left un-rekeyed. -/
theorem read_reports_consumed_on_refused_rekey :
    (Rekey trivPrims limW stW false 100).1 = false ∧
    (NetCryptedMessage.Read trivPrims limW dW stW 100 false
      ([9] ++ List.replicate 16 0)).ret = 17 ∧
    (NetCryptedMessage.Read trivPrims limW dW stW 100 false
      ([9] ++ List.replicate 16 0)).enc.t_rekey_recv = stW.t_rekey_recv ∧
    (NetCryptedMessage.Read trivPrims limW dW stW 100 false
      ([9] ++ List.replicate 16 0)).enc.recv_ctx = stW.recv_ctx := by
  decide

/-- C3: the claim says that once the handshake completes both the ephemeral
private key and the ECDH shared secret are cleared.  The source nulls the
ephemeral key in `ProcessHandshakeRequestData`, but no code path ever
clears `m_raw_ecdh_secret`: `EnableEncryption` leaves it in place on every
input (first conjunct), and on a concrete successful handshake the session
ends `Encrypted` with the 32-byte secret still stored. -/
theorem handshake_retains_shared_secret :
    (∀ pr st b now, (EnableEncryption pr st b now).ecdh_secret = st.ecdh_secret) ∧
    (ProcessHandshakeRequestData trivPrims stH (List.replicate 32 4)).1 = true ∧
    (EnableEncryption trivPrims
      (ProcessHandshakeRequestData trivPrims stH (List.replicate 32 4)).2
      false 50).handshake_done = true ∧
    (EnableEncryption trivPrims
      (ProcessHandshakeRequestData trivPrims stH (List.replicate 32 4)).2
      false 50).eph_key = none ∧
    (EnableEncryption trivPrims
      (ProcessHandshakeRequestData trivPrims stH (List.replicate 32 4)).2
      false 50).ecdh_secret = List.replicate 32 7 := by
  refine ⟨fun pr st b now => ?_, by decide, by decide, by decide, by decide⟩
  unfold EnableEncryption
  split <;> rfl

/-- C4: the claim says every fatal outcome of `Read` yields `-1`.  The
source returns the C++ literal `false` (which the `int` return type
converts to `0`) on AEAD authentication failure and on command-name parse
failure: on a concrete completed frame whose tag does not authenticate,
`Read` returns `0`, not `-1`, even though all 17 chunk bytes were consumed
into the frame buffer (`data_pos` reaches 17). -/
theorem read_returns_zero_on_auth_failure :
    (NetCryptedMessage.Read trivPrims limW dW stW 100 false
      ([9, 1] ++ List.replicate 15 0)).ret = 0 ∧
    (NetCryptedMessage.Read trivPrims limW dW stW 100 false
      ([9, 1] ++ List.replicate 15 0)).dec.data_pos = 17 := by
  decide

/-- C6: when the decrypted-byte abort limit or the time abort limit is
breached, `AuthenticatedAndDecrypt` returns failure before any decryption
attempt: the session state and the caller's buffer are returned exactly
unchanged (no sequence-counter advance, no byte-counter change). -/
theorem decrypt_abort_limits_no_mutation (pr : Prims) (lim : Limits)
    (st : BIP151State) (now : Int) (fast : Bool) (data : List Nat)
    (h : st.bytes_dec + data.length > lim.abortLimitBytes ∨
         now - st.t_rekey_send > lim.abortLimitTime) :
    AuthenticatedAndDecrypt pr lim st now fast data = ⟨false, st, data⟩ := by
  unfold AuthenticatedAndDecrypt
  rcases h with h | h
  · rw [if_pos]
    simp [decide_eq_true h]
  · rw [if_pos]
    simp [decide_eq_true h]

/-- C6 witness: a concrete session at the byte abort limit refuses the next
20-byte frame without touching any state. -/
theorem decrypt_abort_limits_no_mutation_witness :
    stA.bytes_dec + (List.replicate 20 3).length > limW.abortLimitBytes ∧
    AuthenticatedAndDecrypt trivPrims limW stA 100 false (List.replicate 20 3) =
      ⟨false, stA, List.replicate 20 3⟩ :=
  ⟨by decide,
   decrypt_abort_limits_no_mutation trivPrims limW stA 100 false
     (List.replicate 20 3) (Or.inl (by decide))⟩

/-- C9: when the AEAD tag check fails (and the abuse limits did not already
refuse the frame), `AuthenticatedAndDecrypt` returns failure with the
caller's buffer overwritten by zeroes of its full length; only the recv
sequence counter advances (the source's post-increment in the crypt
call). -/
theorem decrypt_zeroes_buffer_on_mac_failure (pr : Prims) (lim : Limits)
    (st : BIP151State) (now : Int) (data : List Nat)
    (h1 : st.bytes_dec + data.length ≤ lim.abortLimitBytes)
    (h2 : now - st.t_rekey_send ≤ lim.abortLimitTime)
    (hmac : chacha20poly1305_decrypt pr st.recv_ctx st.recv_seq data
      (data.length - TAG_LEN - AAD_LEN) = none) :
    AuthenticatedAndDecrypt pr lim st now false data =
      ⟨false, { st with recv_seq := st.recv_seq + 1 },
        List.replicate data.length 0⟩ := by
  unfold AuthenticatedAndDecrypt
  rw [if_neg]
  · rw [hmac]
  · simp [decide_eq_false (not_lt.mpr h1), decide_eq_false (not_lt.mpr h2)]

/-- C9 witness: a concrete 20-byte frame whose tag byte is flipped fails
authentication and comes back as 20 zero bytes. -/
theorem decrypt_zeroes_buffer_on_mac_failure_witness :
    AuthenticatedAndDecrypt trivPrims limW stW 100 false
      ([1, 0, 0, 9] ++ (1 :: List.replicate 15 0)) =
      ⟨false, { stW with recv_seq := 8 }, List.replicate 20 0⟩ :=
  decrypt_zeroes_buffer_on_mac_failure trivPrims limW stW 100
    ([1, 0, 0, 9] ++ (1 :: List.replicate 15 0))
    (by decide) (by decide) (by decide)

/-- C10: `EnableEncryption` invoked while the stored ECDH secret is not
exactly 32 bytes returns the session completely unchanged — in particular
no keys are derived, `handshake_done` keeps its value, and
`ShouldCryptMsg` is unaffected. -/
theorem enable_encryption_noop_without_secret (pr : Prims)
    (st : BIP151State) (b : Bool) (now : Int)
    (h : st.ecdh_secret.length ≠ 32) :
    EnableEncryption pr st b now = st ∧
    ShouldCryptMsg (EnableEncryption pr st b now) = ShouldCryptMsg st := by
  unfold EnableEncryption
  rw [if_pos h]
  exact ⟨rfl, rfl⟩

/-- C10 witness: on the fresh session (empty secret) `EnableEncryption` is
the identity and `ShouldCryptMsg` stays false. -/
theorem enable_encryption_noop_without_secret_witness :
    stH.ecdh_secret.length ≠ 32 ∧
    (EnableEncryption trivPrims stH true 9 = stH ∧
     ShouldCryptMsg (EnableEncryption trivPrims stH true 9) = ShouldCryptMsg stH) :=
  ⟨by decide, enable_encryption_noop_without_secret trivPrims stH true 9 (by decide)⟩

/-- C7: key installation gives the initiator (outbound, `inbound = false`)
K1 for sending and K2 for receiving, the responder the mirror image, and
every successful `Rekey(d)` rewrites exactly the keypack serving direction
`d` under that same fixed assignment (`rekeySource`), re-keys only that
direction's AEAD context, and never changes `m_inbound` or the other
direction's keypack. -/
theorem directional_assignment_fixed :
    (∀ pr st b now, st.ecdh_secret.length = 32 →
      (EnableEncryption pr st b now).inbound = b ∧
      (EnableEncryption pr st b now).send_ctx =
        (if b then (EnableEncryption pr st b now).k2
         else (EnableEncryption pr st b now).k1) ∧
      (EnableEncryption pr st b now).recv_ctx =
        (if b then (EnableEncryption pr st b now).k1
         else (EnableEncryption pr st b now).k2) ∧
      (EnableEncryption pr st b now).handshake_done = true) ∧
    (∀ pr lim st d now, (Rekey pr lim st d now).1 = true →
      (Rekey pr lim st d now).2.inbound = st.inbound ∧
      rekeySource (Rekey pr lim st d now).2 d = rekeyNewKeypack pr st d ∧
      rekeySource (Rekey pr lim st d now).2 (!d) = rekeySource st (!d) ∧
      (d = true → (Rekey pr lim st d now).2.send_ctx = rekeyNewKeypack pr st true ∧
        (Rekey pr lim st d now).2.recv_ctx = st.recv_ctx) ∧
      (d = false → (Rekey pr lim st d now).2.recv_ctx = rekeyNewKeypack pr st false ∧
        (Rekey pr lim st d now).2.send_ctx = st.send_ctx)) := by
  constructor
  · intro pr st b now h
    unfold EnableEncryption
    rw [if_neg (by omega)]
    cases b <;> exact ⟨rfl, rfl, rfl, rfl⟩
  · intro pr lim st d now h
    unfold Rekey at h ⊢
    by_cases hc : (!d && decide (now - st.t_rekey_recv < lim.minRekeyTime)) = true
    · rw [if_pos hc] at h
      exact absurd h (by simp)
    · rw [if_neg hc] at h ⊢
      cases d <;> cases hi : st.inbound <;>
        simp [rekeySource, rekeyNewKeypack, hi]

/-- C7 witness: concrete instances of both halves — a responder-side key
installation binds the send context to K2, and a successful send-side rekey
on a concrete session replaces exactly the send-direction keypack. -/
theorem directional_assignment_fixed_witness :
    ((EnableEncryption trivPrims stW true 50).send_ctx =
      (if true then (EnableEncryption trivPrims stW true 50).k2
       else (EnableEncryption trivPrims stW true 50).k1)) ∧
    rekeySource (Rekey trivPrims limW stW true 100).2 true =
      rekeyNewKeypack trivPrims stW true ∧
    rekeySource (Rekey trivPrims limW stW true 100).2 (!true) =
      rekeySource stW (!true) :=
  ⟨(directional_assignment_fixed.1 trivPrims stW true 50 (by decide)).2.1,
   (directional_assignment_fixed.2 trivPrims limW stW true 100 (by decide)).2.1,
   (directional_assignment_fixed.2 trivPrims limW stW true 100 (by decide)).2.2.1⟩

lemma listWrite_length (buf src : List Nat) (pos : Nat)
    (h : pos + src.length ≤ buf.length) :
    (listWrite buf pos src).length = buf.length := by
  unfold listWrite
  simp only [List.length_append, List.length_take, List.length_drop]
  omega

/-- C8: when a chunk completes the header phase, the decoder takes the
rekey flag from bit 23 of the recovered 24-bit length, stores the length
with that bit cleared (`len % 2²³`) as `message_size`, and returns `-1`
exactly when the masked size exceeds `MAX_SIZE`; otherwise it reports the
consumed header bytes and switches to the data phase.  The masked size
equal to `MAX_SIZE` is therefore accepted and `MAX_SIZE + 1` rejected. -/
theorem header_phase_masks_rekey_bit (pr : Prims) (lim : Limits)
    (d : DecoderState) (e : BIP151State) (now : Int) (fast : Bool)
    (pch : List Nat)
    (hin : d.in_data = false)
    (hvlen : d.vRecv.length = AAD_LEN)
    (hpos : d.hdr_pos ≤ AAD_LEN)
    (hfill : AAD_LEN - d.hdr_pos ≤ pch.length) :
    (NetCryptedMessage.Read pr lim d e now fast pch).dec.rekey_flag =
      (chacha20poly1305_get_length24 pr e.recv_ctx e.recv_seq
        (listWrite d.vRecv d.hdr_pos (pch.take (AAD_LEN - d.hdr_pos)))).testBit 23 ∧
    (NetCryptedMessage.Read pr lim d e now fast pch).dec.message_size =
      chacha20poly1305_get_length24 pr e.recv_ctx e.recv_seq
        (listWrite d.vRecv d.hdr_pos (pch.take (AAD_LEN - d.hdr_pos))) % 8388608 ∧
    ((NetCryptedMessage.Read pr lim d e now fast pch).ret = -1 ↔
      chacha20poly1305_get_length24 pr e.recv_ctx e.recv_seq
        (listWrite d.vRecv d.hdr_pos (pch.take (AAD_LEN - d.hdr_pos))) % 8388608 >
        lim.maxSize) ∧
    (chacha20poly1305_get_length24 pr e.recv_ctx e.recv_seq
        (listWrite d.vRecv d.hdr_pos (pch.take (AAD_LEN - d.hdr_pos))) % 8388608 ≤
        lim.maxSize →
      (NetCryptedMessage.Read pr lim d e now fast pch).ret =
        Int.ofNat (AAD_LEN - d.hdr_pos) ∧
      (NetCryptedMessage.Read pr lim d e now fast pch).dec.in_data = true) := by
  have hcopy : min (AAD_LEN - d.hdr_pos) pch.length = AAD_LEN - d.hdr_pos :=
    min_eq_left hfill
  have hwlen : (listWrite d.vRecv d.hdr_pos
      (pch.take (AAD_LEN - d.hdr_pos))).length = AAD_LEN := by
    rw [listWrite_length _ _ _ (by simp [List.length_take]; omega), hvlen]
  have hsum : d.hdr_pos + (AAD_LEN - d.hdr_pos) = AAD_LEN := by omega
  unfold NetCryptedMessage.Read
  rw [hin]
  simp only [Bool.not_false, if_true, hcopy, hsum]
  rw [if_neg (lt_irrefl AAD_LEN)]
  unfold GetLength
  rw [if_neg (by omega)]
  set LEN := chacha20poly1305_get_length24 pr e.recv_ctx e.recv_seq
    (listWrite d.vRecv d.hdr_pos (pch.take (AAD_LEN - d.hdr_pos))) with hLEN
  simp only [and_bit23_flag LEN]
  have hmask : (if LEN.testBit 23 then LEN &&& 8388607 else LEN) = LEN % 8388608 :=
    mask23_eq_mod LEN (get_length24_lt pr e.recv_ctx e.recv_seq _)
  rw [hmask]
  by_cases hm : LEN % 8388608 > lim.maxSize
  · rw [if_pos hm]
    dsimp only
    refine ⟨rfl, rfl, ?_, ?_⟩
    · simp [hm]
    · intro hle
      exact absurd hle (not_le.mpr hm)
  · rw [if_neg hm]
    dsimp only
    refine ⟨rfl, rfl, ?_, fun _ => ⟨rfl, rfl⟩⟩
    constructor
    · intro hcon
      rw [Int.ofNat_eq_coe] at hcon
      omega
    · intro hcon
      exact absurd hcon hm

/-- C8 witness: with `MAX_SIZE = 1000`, the header `[233, 3, 0]` (masked
size 1001) is rejected with `-1`, while `[232, 3, 0]` (masked size 1000,
exactly `MAX_SIZE`) is accepted: `Read` returns the 3 consumed header
bytes and enters the data phase. -/
theorem header_phase_masks_rekey_bit_witness :
    (NetCryptedMessage.Read trivPrims limB dH stW 100 false [233, 3, 0]).ret = -1 ∧
    ((NetCryptedMessage.Read trivPrims limB dH stW 100 false [232, 3, 0]).ret =
       Int.ofNat (AAD_LEN - dH.hdr_pos) ∧
     (NetCryptedMessage.Read trivPrims limB dH stW 100 false [232, 3, 0]).dec.in_data =
       true) :=
  ⟨(header_phase_masks_rekey_bit trivPrims limB dH stW 100 false [233, 3, 0]
      (by decide) (by decide) (by decide) (by decide)).2.2.1.mpr (by decide),
   (header_phase_masks_rekey_bit trivPrims limB dH stW 100 false [232, 3, 0]
      (by decide) (by decide) (by decide) (by decide)).2.2.2 (by decide)⟩

lemma roundtrip_core (pr : Prims) (key : List Nat) (seq : Nat)
    (a0 a1 a2 : Nat) (P : List Nat) :
    chacha20poly1305_decrypt pr key seq
      (chacha20poly1305_encrypt pr key seq (a0 :: a1 :: a2 :: P)) P.length =
      some (a0 :: a1 :: a2 :: P) := by
  unfold chacha20poly1305_encrypt chacha20poly1305_decrypt
  dsimp only
  set fA := pr.ksA (key.take 32) seq with hfA
  set fB := pr.ksB (key.drop 32) seq with hfB
  have htake : ((a0 :: a1 :: a2 :: P).take AAD_LEN) = [a0, a1, a2] := rfl
  have hdrop : ((a0 :: a1 :: a2 :: P).drop AAD_LEN) = P := rfl
  rw [htake, hdrop]
  have hAad : xorKs fA 0 [a0, a1, a2] =
      [a0 ^^^ fA 0, a1 ^^^ fA 1, a2 ^^^ fA 2] := rfl
  rw [hAad]
  set encPay := xorKs fB 0 P with hEncPay
  set tg := pr.tagF key seq ([a0 ^^^ fA 0, a1 ^^^ fA 1, a2 ^^^ fA 2] ++ encPay) with htg
  have hPayLen : encPay.length = P.length := xorKs_length fB 0 P
  have hTgLen : tg.length = 16 := pr.tag_len key seq _
  have hframe : ([a0 ^^^ fA 0, a1 ^^^ fA 1, a2 ^^^ fA 2] ++ encPay ++ tg) =
      (a0 ^^^ fA 0) :: (a1 ^^^ fA 1) :: (a2 ^^^ fA 2) :: (encPay ++ tg) := by
    simp
  rw [hframe]
  have h1 : (((a0 ^^^ fA 0) :: (a1 ^^^ fA 1) :: (a2 ^^^ fA 2) :: (encPay ++ tg)).take AAD_LEN) =
      [a0 ^^^ fA 0, a1 ^^^ fA 1, a2 ^^^ fA 2] := rfl
  have h2 : (((a0 ^^^ fA 0) :: (a1 ^^^ fA 1) :: (a2 ^^^ fA 2) :: (encPay ++ tg)).drop AAD_LEN) =
      encPay ++ tg := rfl
  rw [h1, h2]
  have h3 : (encPay ++ tg).take P.length = encPay := by
    rw [← hPayLen, List.take_left]
  have h4 : (((a0 ^^^ fA 0) :: (a1 ^^^ fA 1) :: (a2 ^^^ fA 2) :: (encPay ++ tg)).drop (AAD_LEN + P.length)) =
      (encPay ++ tg).drop P.length := by
    show (((a0 ^^^ fA 0) :: (a1 ^^^ fA 1) :: (a2 ^^^ fA 2) :: (encPay ++ tg)).drop (3 + P.length)) = _
    rw [Nat.add_comm]
    rfl
  rw [h3, h4]
  have h5 : (encPay ++ tg).drop P.length = tg := by
    rw [← hPayLen, List.drop_left]
  rw [h5]
  have h6 : tg.take TAG_LEN = tg := by
    rw [show TAG_LEN = tg.length from hTgLen.symm, List.take_length]
  rw [h6, if_pos rfl]
  have h7 : xorKs fA 0 [a0 ^^^ fA 0, a1 ^^^ fA 1, a2 ^^^ fA 2] = [a0, a1, a2] := by
    simp [xorKs, Nat.xor_cancel_right]
  rw [h7, hEncPay, xorKs_xorKs]
  rfl

lemma frame_length (pr : Prims) (key : List Nat) (seq : Nat)
    (b0 b1 b2 : Nat) (P : List Nat) :
    (chacha20poly1305_encrypt pr key seq (b0 :: b1 :: b2 :: P)).length =
      3 + (P.length + 16) := by
  unfold chacha20poly1305_encrypt
  dsimp only
  rw [List.length_append, List.length_append]
  have h1 : (xorKs (pr.ksA (key.take 32) seq) 0 ((b0 :: b1 :: b2 :: P).take AAD_LEN)).length = 3 := rfl
  have h2 : (xorKs (pr.ksB (key.drop 32) seq) 0 ((b0 :: b1 :: b2 :: P).drop AAD_LEN)).length = P.length :=
    xorKs_length _ 0 P
  have h3 := pr.tag_len key seq
    ((xorKs (pr.ksA (key.take 32) seq) 0 ((b0 :: b1 :: b2 :: P).take AAD_LEN)) ++
     (xorKs (pr.ksB (key.drop 32) seq) 0 ((b0 :: b1 :: b2 :: P).drop AAD_LEN)))
  rw [h1, h2, h3]
  simp [TAG_LEN]
  omega

lemma decrypt_of_encrypt (pr : Prims) (lim : Limits) (rst : BIP151State)
    (key : List Nat) (seq : Nat) (nowR : Int) (b0 b1 b2 : Nat) (P : List Nat)
    (hkey : rst.recv_ctx = key) (hseq : rst.recv_seq = seq)
    (hbytes : rst.bytes_dec + (AAD_LEN + P.length + TAG_LEN) ≤ lim.abortLimitBytes)
    (htime : nowR - rst.t_rekey_send ≤ lim.abortLimitTime) :
    (AuthenticatedAndDecrypt pr lim rst nowR false
      (chacha20poly1305_encrypt pr key seq (b0 :: b1 :: b2 :: P))).ok = true ∧
    (AuthenticatedAndDecrypt pr lim rst nowR false
      (chacha20poly1305_encrypt pr key seq (b0 :: b1 :: b2 :: P))).buf = P := by
  have hflen := frame_length pr key seq b0 b1 b2 P
  unfold AuthenticatedAndDecrypt
  rw [if_neg (by
    simp only [Bool.or_eq_true, decide_eq_true_eq, Bool.false_and, Bool.or_false]
    push_neg
    constructor
    · rw [hflen]
      simp only [AAD_LEN, TAG_LEN] at hbytes
      omega
    · exact htime)]
  have hplen : (chacha20poly1305_encrypt pr key seq (b0 :: b1 :: b2 :: P)).length -
      TAG_LEN - AAD_LEN = P.length := by
    rw [hflen]
    simp only [TAG_LEN, AAD_LEN]
    omega
  rw [hplen, hkey, hseq, roundtrip_core]
  dsimp only
  refine ⟨rfl, ?_⟩
  show List.take P.length (List.drop AAD_LEN (b0 :: b1 :: b2 :: P)) = P
  rw [show List.drop AAD_LEN (b0 :: b1 :: b2 :: P) = P from rfl]
  exact List.take_length P

/-- C5, amended: for any plaintext `P` behind a 3-byte header with bit 23
clear, encrypting on the sender and decrypting on a receiver whose recv
AEAD key and sequence counter equal the sender's send key and counter
succeeds and returns exactly `P` (AAD and tag removed) — provided the
receiver's abuse limits do not refuse the frame (the decrypted-byte abort
limit admits the frame, the time abort limit has not elapsed, and the
fast-rekey test limit is not in effect).  Without that proviso the claim
fails: see the counterexample at the abort limit. -/
theorem encrypt_decrypt_roundtrip (pr : Prims) (lim : Limits)
    (sst rst : BIP151State) (nowS nowR : Int) (fastS : Bool)
    (b0 b1 b2 : Nat) (P : List Nat)
    (hbit : b2.testBit 7 = false)
    (hkey : rst.recv_ctx = sst.send_ctx)
    (hseq : rst.recv_seq = sst.send_seq)
    (hbytes : rst.bytes_dec + (AAD_LEN + P.length + TAG_LEN) ≤ lim.abortLimitBytes)
    (htime : nowR - rst.t_rekey_send ≤ lim.abortLimitTime) :
    (EncryptAppendMAC pr lim sst nowS fastS (b0 :: b1 :: b2 :: P)).ok = true ∧
    (AuthenticatedAndDecrypt pr lim rst nowR false
      (EncryptAppendMAC pr lim sst nowS fastS (b0 :: b1 :: b2 :: P)).buf).ok = true ∧
    (AuthenticatedAndDecrypt pr lim rst nowR false
      (EncryptAppendMAC pr lim sst nowS fastS (b0 :: b1 :: b2 :: P)).buf).buf = P := by
  have hchar : ∃ c, (EncryptAppendMAC pr lim sst nowS fastS (b0 :: b1 :: b2 :: P)).ok = true ∧
      (EncryptAppendMAC pr lim sst nowS fastS (b0 :: b1 :: b2 :: P)).buf =
        chacha20poly1305_encrypt pr sst.send_ctx sst.send_seq (b0 :: b1 :: c :: P) := by
    unfold EncryptAppendMAC
    rw [show ((b0 :: b1 :: b2 :: P).getD 2 0) = b2 from rfl]
    rw [if_neg (by rw [hbit]; exact Bool.false_ne_true)]
    dsimp only
    cases hS : ShouldRekeySend lim sst nowS fastS
    · exact ⟨b2, rfl, by simp only [hS, Bool.false_eq_true, if_false]⟩
    · exact ⟨b2 ||| 128, rfl, by simp only [hS, if_true]; rfl⟩
  obtain ⟨c, hok, hbuf⟩ := hchar
  rw [hbuf]
  exact ⟨hok,
    (decrypt_of_encrypt pr lim rst sst.send_ctx sst.send_seq nowR b0 b1 c P
      hkey hseq hbytes htime).1,
    (decrypt_of_encrypt pr lim rst sst.send_ctx sst.send_seq nowR b0 b1 c P
      hkey hseq hbytes htime).2⟩

/-- C5 counterexample to the unamended claim: a receiver whose recv key and
sequence counter match the sender's send key and counter, on a session
whose handshake completed, still fails to decrypt the encrypted frame
(with output not equal to the plaintext) when its decrypted-byte counter
sits at the abort limit — the abuse check refuses the frame before
decryption. -/
theorem roundtrip_fails_at_abort_limit :
    stB.recv_ctx = stW.send_ctx ∧ stB.recv_seq = stW.send_seq ∧
    stW.handshake_done = true ∧ stB.handshake_done = true ∧
    (EncryptAppendMAC trivPrims limW stW 100 false (1 :: 0 :: 0 :: [9])).ok = true ∧
    (AuthenticatedAndDecrypt trivPrims limW stB 100 false
      (EncryptAppendMAC trivPrims limW stW 100 false (1 :: 0 :: 0 :: [9])).buf).ok = false ∧
    (AuthenticatedAndDecrypt trivPrims limW stB 100 false
      (EncryptAppendMAC trivPrims limW stW 100 false (1 :: 0 :: 0 :: [9])).buf).buf ≠ [9] := by
  decide

/-- C5 witness: a concrete three-byte plaintext round-trips through the
codec on matched sessions within the abuse limits. -/
theorem encrypt_decrypt_roundtrip_witness :
    (EncryptAppendMAC trivPrims limW stW 100 false (1 :: 0 :: 0 :: [9, 8, 7])).ok = true ∧
    (AuthenticatedAndDecrypt trivPrims limW stC 100 false
      (EncryptAppendMAC trivPrims limW stW 100 false (1 :: 0 :: 0 :: [9, 8, 7])).buf).ok = true ∧
    (AuthenticatedAndDecrypt trivPrims limW stC 100 false
      (EncryptAppendMAC trivPrims limW stW 100 false (1 :: 0 :: 0 :: [9, 8, 7])).buf).buf = [9, 8, 7] :=
  encrypt_decrypt_roundtrip trivPrims limW stW stC 100 100 false 1 0 0 [9, 8, 7]
    (by decide) (by decide) (by decide) (by decide) (by decide)
